import Mathlib

/-!
Verification of the Conversation Orchestration & Notification Scheduling core
of the receptions-ai repository, as a shallow embedding in Lean 4.

Embedding conventions:
* Python dict results become Lean structures.
* Database state becomes explicit lists of rows threaded through functions.
* `datetime` instants become `Int` minutes; times-of-day become `Nat` minutes
  since midnight.
* Exceptions raised by external collaborators (the reasoning gateway, the
  calendar API, the SMS client) are modelled as `Except String` values handed
  to the embedded function, which handles them exactly as the corresponding
  `try`/`except` blocks do.
-/

namespace Receptions

/-- Does `needle` occur contiguously inside `l`, starting at any position? -/
def listContains (needle : List Char) : List Char → Bool
  | [] => needle.isEmpty
  | c :: rest => needle.isPrefixOf (c :: rest) || listContains needle rest

/-- Substring containment: `needle` occurs contiguously inside `hay`.
Models the Python `needle in hay` test on strings. -/
def strContains (hay needle : String) : Bool :=
  listContains needle.data hay.data

/-- Models Python `str.lower()`, restricted to ASCII case mapping (all the
classification keywords are ASCII). -/
def pyLower (s : String) : String :=
  String.mk (s.data.map Char.toLower)

/-! ### Action classification (receptionist_agent.py, lines 232-240 / 454-467)

The classification is inlined in `process_message` and both streaming
variants; all three use the identical rule chain. -/

/-- Action classification exactly as written in `process_message`
(receptionist_agent.py lines 232-240): lower-case the response, then test the
keyword rules in order, first match wins. -/
def classify_action (response : String) : String :=
  let r := pyLower response
  if strContains r "booking" || strContains r "appointed" then "booking"
  else if strContains r "transfer" then "transfer"
  else if strContains r "calendar" || strContains r "available" then "calendar"
  else "response"

/-- Reference classification following the spec's words (spec §4.1): performed
on the final text only, by case-insensitive substring matching against a fixed
ordered rule set, first match wins: contains "booking" or "appointed" →
booking; else contains "transfer" → transfer; else contains "calendar" or
"available" → calendar; else → response. -/
def classify_action_spec (finalText : String) : String :=
  let lowered := pyLower finalText
  if strContains lowered "booking" || strContains lowered "appointed" then "booking"
  else if strContains lowered "transfer" then "transfer"
  else if strContains lowered "calendar" || strContains lowered "available" then "calendar"
  else "response"

/-! ### Turn processing (receptionist_agent.py) -/

/-- The value returned by `agent.invoke`: the `content` fields of
`result["messages"]`. An empty list models a falsy `result.get("messages")`. -/
structure AgentResult where
  messages : List String
deriving DecidableEq, Repr

/-- The dict `{"response": ..., "action": ...}` returned by `process_message`. -/
structure TurnResult where
  response : String
  action : String
deriving DecidableEq, Repr

/-- The apologetic message built at the turn boundary: Python
`f"I encountered an error: {str(e)}. Please try again."`. -/
def apologyMessage (e : String) : String :=
  "I encountered an error: " ++ e ++ ". Please try again."

/-- Embedding of `process_message` (receptionist_agent.py lines 177-247).

* `ctxBuild` models the context-building phase (`create_receptionist_agent`,
  which loads the FAQ) which can raise; its exception is caught by the outer
  `except`.
* `convExists` models whether the `Conversation` row lookup found a row.
* `agentRun` models `agent.invoke`: either the result messages or a raised
  exception, likewise caught by the outer `except`. -/
def process_message (ctxBuild : Except String Unit) (convExists : Bool)
    (agentRun : Except String AgentResult) : TurnResult :=
  match ctxBuild with
  | .error e => ⟨apologyMessage e, "error"⟩
  | .ok _ =>
    if !convExists then ⟨"Error: Conversation not found", "error"⟩
    else
      match agentRun with
      | .error e => ⟨apologyMessage e, "error"⟩
      | .ok result =>
        let response := (result.messages.getLast?).getD "No response generated"
        ⟨response, classify_action response⟩

/-! ### Streaming re-chunking (receptionist_agent.py lines 429-472) -/

/-- One chunk yielded by a streaming variant. -/
inductive Chunk where
  | content (data : String)
  | done (action : String) (full_response : String)
  | error (data : String)
deriving DecidableEq, Repr

/-- Python membership test `buffer[-1] in " ,.!?:;\n"`. -/
def isBoundaryChar (c : Char) : Bool :=
  c = ' ' || c = ',' || c = '.' || c = '!' || c = '?' || c = ':' || c = ';' || c = '\n'

/-- The character loop of the re-chunking mode (lines 436-451): accumulate
characters into `buffer`; yield the buffer when its last character is a word
boundary or punctuation, when it has reached 10 characters, or at the last
character of the text. `rest.isEmpty` models `i == len(full_response) - 1`. -/
def rechunkGo (buffer : List Char) : List Char → List String
  | [] => []
  | c :: rest =>
    let buf := buffer ++ [c]
    if isBoundaryChar c || buf.length ≥ 10 || rest.isEmpty then
      String.mk buf :: rechunkGo [] rest
    else
      rechunkGo buf rest

/-- Split a final text into the delivery chunks the re-chunking mode yields. -/
def rechunk (s : String) : List String :=
  rechunkGo [] s.data

/-- Embedding of `process_message_stream` (receptionist_agent.py lines
364-478), the re-chunking (non-live) streaming variant, as the list of chunks
the generator yields in order. Parameters are as in `process_message`. -/
def process_message_stream (ctxBuild : Except String Unit) (convExists : Bool)
    (agentRun : Except String AgentResult) : List Chunk :=
  match ctxBuild with
  | .error e => [.error (apologyMessage e)]
  | .ok _ =>
    if !convExists then [.error "Conversation not found"]
    else
      match agentRun with
      | .error e => [.error (apologyMessage e)]
      | .ok result =>
        let full_response := (result.messages.getLast?).getD ""
        let contents :=
          if full_response.data.isEmpty then []
          else (rechunk full_response).map Chunk.content
        let action :=
          if full_response.data.isEmpty then "response"
          else classify_action full_response
        contents ++ [.done action full_response]

/-- Embedding of `process_message_stream_async` (receptionist_agent.py lines
250-361), the live-token streaming variant. `polled` is the sequence of
strings returned by `token_callback.get_new_tokens()` over the polling loop
plus the final flush; empty strings model polls in which the queue was empty
(the code only yields non-empty batches). When no token was captured at all,
the full text from the result is yielded as a single fallback content chunk.
On an `agent.invoke` exception, the batches polled before the failure have
already been yielded, then the generator yields the terminal error chunk. -/
def process_message_stream_async (ctxBuild : Except String Unit)
    (convExists : Bool) (agentRun : Except String AgentResult)
    (polled : List String) : List Chunk :=
  match ctxBuild with
  | .error e => [.error (apologyMessage e)]
  | .ok _ =>
    if !convExists then [.error "Conversation not found"]
    else
      let batches := polled.filter (fun b => !b.isEmpty)
      match agentRun with
      | .error e => (batches.map Chunk.content) ++ [.error (apologyMessage e)]
      | .ok result =>
        let captured := String.join batches
        let fallback := (result.messages.getLast?).getD ""
        let contents :=
          if captured.isEmpty then (if fallback.isEmpty then [] else [fallback])
          else batches
        let full_response := if captured.isEmpty then fallback else captured
        let action :=
          if full_response.isEmpty then "response"
          else classify_action full_response
        (contents.map Chunk.content) ++ [.done action full_response]

/-! ### Booking tool (booking_tool.py) -/

/-- A row of the `bookings` table (models/booking.py). Instants are `Int`
minutes. -/
structure BookingRow where
  user_id : String
  user_name : String
  user_phone : String
  datetime : Int
  notes : Option String
  created_at : Int
  google_event_id : Option String
  reminder_sent : Bool
  review_sent : Bool
deriving DecidableEq, Repr

/-- A tool result dict with `status` and `message` fields. -/
structure ToolResult where
  status : String
  message : String
deriving DecidableEq, Repr

/-- The dict returned by `GoogleCalendarService.create_event`
(google_calendar.py lines 115-162): a `status` field and, on success, an
`event_id`. -/
structure CalCreateResult where
  status : String
  event_id : Option String
deriving DecidableEq, Repr

/-- Observable storage/side-effect events of one `create_booking` call, in
the order the code performs them. -/
inductive BookingEv where
  | commitBooking (b : BookingRow)
  | calendarAttempt
  | commitEventId (eid : Option String)
  | smsAttempt
deriving DecidableEq, Repr

/-- The outcome of `create_booking`: the booking table afterwards, the
ordered event trace, and the returned dict. -/
structure BookingOutcome where
  db : List BookingRow
  trace : List BookingEv
  result : ToolResult
deriving DecidableEq, Repr

/-- Rendering of an instant in a user-facing message. The code renders via
`strftime`; the claims below never depend on this rendering. -/
def fmtInstant (t : Int) : String :=
  toString t

/-- Embedding of `create_booking` (booking_tool.py lines 11-100).

* `parsed` is the outcome of `datetime.strptime(datetime_str, "%Y-%m-%d
  %H:%M")`: `none` models the `ValueError` branch, `some b` the parsed
  instant.
* `now` is `datetime.now()` at the validation line; the committed row's
  `created_at` is that same instant.
* `calRun` models the calendar phase: `.error` is an exception raised by
  `GoogleCalendarService()` or `create_event` (caught and logged), `.ok` the
  dict `create_event` returned.
* `smsRun` models `send_sms`: exception caught and logged, result unused. -/
def create_booking (db : List BookingRow) (user_id user_name user_phone : String)
    (parsed : Option Int) (notes : Option String) (now : Int)
    (calRun : Except String CalCreateResult) (smsRun : Except String Unit) :
    BookingOutcome :=
  match parsed with
  | none =>
    ⟨db, [], ⟨"error", "Invalid date/time format. Please use 'YYYY-MM-DD HH:MM'"⟩⟩
  | some booking_datetime =>
    if booking_datetime < now then
      ⟨db, [], ⟨"error", "Cannot book in the past. Please choose a future date."⟩⟩
    else
      let booking : BookingRow :=
        ⟨user_id, user_name, user_phone, booking_datetime, notes, now, none,
          false, false⟩
      -- `db.add(booking); db.commit()` happens before both side effects.
      let calTrace : List BookingEv :=
        match calRun with
        | .error _ => []
        | .ok cal =>
          if cal.status = "success" then [.commitEventId cal.event_id] else []
      let booking' : BookingRow :=
        match calRun with
        | .error _ => booking
        | .ok cal =>
          if cal.status = "success" then
            { booking with google_event_id := cal.event_id }
          else booking
      -- the SMS phase ignores smsRun entirely: success and exception alike
      -- leave storage and the returned dict unchanged
      ⟨db ++ [booking'],
        [.commitBooking booking, .calendarAttempt] ++ calTrace ++ [.smsAttempt],
        ⟨"success",
          "Booking confirmed for " ++ user_name ++ " on " ++
            fmtInstant booking_datetime ++ ". Confirmation SMS sent."⟩⟩

/-! ### Notification scheduler (scheduler.py) -/

/-- Reminder-job eligibility (scheduler.py lines 56-60): appointment within
the ±10-minute window centred 24 hours (= 1440 minutes) from now, and the
reminder flag still false. -/
def reminderEligible (now : Int) (b : BookingRow) : Bool :=
  (now + 1440 - 10 ≤ b.datetime) && (b.datetime ≤ now + 1440 + 10) &&
    (b.reminder_sent = false)

/-- Review-job eligibility (scheduler.py lines 97-101): appointment in the
past but within the last 2 days (= 2880 minutes), and the review flag still
false. -/
def reviewEligible (now : Int) (b : BookingRow) : Bool :=
  (b.datetime < now) && (now - 2880 ≤ b.datetime) && (b.review_sent = false)

/-- Per-record body of the reminder sweep (scheduler.py lines 62-77): for a
selected record, send; only a reported `"success"` sets the flag and commits;
a non-success result or a raised exception leaves the record unchanged.
`send` models `send_reminder_sms` (`.error` = raised exception). -/
def reminderStep (now : Int) (send : BookingRow → Except String String)
    (b : BookingRow) : BookingRow :=
  if reminderEligible now b then
    match send b with
    | .ok st => if st = "success" then { b with reminder_sent := true } else b
    | .error _ => b
  else b

/-- Per-record body of the review sweep (scheduler.py lines 103-115), same
success-gated flag update for `review_sent`. -/
def reviewStep (now : Int) (send : BookingRow → Except String String)
    (b : BookingRow) : BookingRow :=
  if reviewEligible now b then
    match send b with
    | .ok st => if st = "success" then { b with review_sent := true } else b
    | .error _ => b
  else b

/-- One `_send_booking_reminders` sweep over the booking table: the query
selects the eligible rows, the loop applies the per-record body to each. -/
def sweepReminders (now : Int) (send : BookingRow → Except String String)
    (db : List BookingRow) : List BookingRow :=
  db.map (reminderStep now send)

/-- The rows the reminder sweep's query selects — exactly the rows the loop
sends to. -/
def sweepRemindersSent (now : Int) (db : List BookingRow) : List BookingRow :=
  db.filter (reminderEligible now)

/-- One `_send_review_requests` sweep over the booking table. -/
def sweepReviews (now : Int) (send : BookingRow → Except String String)
    (db : List BookingRow) : List BookingRow :=
  db.map (reviewStep now send)

/-- The rows the review sweep's query selects. -/
def sweepReviewsSent (now : Int) (db : List BookingRow) : List BookingRow :=
  db.filter (reviewEligible now)

/-- Scheduler state: the underlying `BackgroundScheduler.running` flag. -/
structure SchedState where
  running : Bool
deriving DecidableEq, Repr

/-- The underlying APScheduler `start`: raises `SchedulerAlreadyRunningError`
when called on a scheduler that is already running. -/
def baseStart (s : SchedState) : Except String SchedState :=
  if s.running then .error "SchedulerAlreadyRunningError" else .ok ⟨true⟩

/-- The underlying APScheduler `shutdown`: raises when the scheduler is not
running. -/
def baseShutdown (s : SchedState) : Except String SchedState :=
  if s.running then .ok ⟨false⟩ else .error "SchedulerNotRunningError"

/-- `SchedulerService.start` (scheduler.py lines 123-127): guarded by
`if not self.scheduler.running`. -/
def schedulerStart (s : SchedState) : Except String SchedState :=
  if !s.running then baseStart s else .ok s

/-- `SchedulerService.stop` (scheduler.py lines 129-133): guarded by
`if self.scheduler.running`. -/
def schedulerStop (s : SchedState) : Except String SchedState :=
  if s.running then baseShutdown s else .ok s

/-! ### Calendar availability (google_calendar.py, calendar_tool.py)

Times-of-day are `Nat` minutes since midnight; the fixed daily service window
is 09:00 (= 540) to 17:00 (= 1020); the slot duration is the default
`duration_minutes = 30`. Events fetched from the external calendar are
`(start, end)` pairs in the same unit, already ordered by start time
(`orderBy='startTime'`). -/

/-- The inner `while` of `get_available_slots` (google_calendar.py lines
99-102 and 108-111): emit consecutive 30-minute slots starting at `current`
while a whole slot still fits before `limit`. -/
def slotsFrom (current limit : Nat) : List (Nat × Nat) :=
  if current + 30 ≤ limit then (current, current + 30) :: slotsFrom (current + 30) limit
  else []
termination_by limit - current
decreasing_by simp_wf; omega

/-- Where `current_time` stands after the inner `while` has run. -/
def advanceTo (current limit : Nat) : Nat :=
  if current + 30 ≤ limit then advanceTo (current + 30) limit else current
termination_by limit - current
decreasing_by simp_wf; omega

/-- The event loop of `get_available_slots` (lines 82-105) followed by the
trailing slot loop (lines 108-111): before each event emit the slots that fit,
then jump `current_time` to `max(current_time, event_end)`. -/
def availLoop (current : Nat) : List (Nat × Nat) → List (Nat × Nat)
  | [] => slotsFrom current 1020
  | (es, ee) :: rest =>
    slotsFrom current es ++ availLoop (max (advanceTo current es) ee) rest

/-- Embedding of `GoogleCalendarService.get_available_slots`
(google_calendar.py lines 47-113) for a day whose fetched events are
`events`. -/
def get_available_slots (events : List (Nat × Nat)) : List (Nat × Nat) :=
  availLoop 540 events

/-- A calendar date as `datetime.date`. -/
structure SimpleDate where
  year : Nat
  month : Nat
  day : Nat
deriving DecidableEq, Repr

/-- Gregorian leap-year rule. -/
def isLeap (y : Nat) : Bool :=
  (y % 4 = 0 && y % 100 ≠ 0) || y % 400 = 0

/-- Days in a month of the Gregorian calendar. -/
def daysInMonth (y m : Nat) : Nat :=
  if m = 2 then (if isLeap y then 29 else 28)
  else if m = 4 || m = 6 || m = 9 || m = 11 then 30
  else 31

/-- `(datetime.now() + timedelta(days=1)).date()`: the calendar day after
`d`. -/
def nextDay (d : SimpleDate) : SimpleDate :=
  if d.day < daysInMonth d.year d.month then ⟨d.year, d.month, d.day + 1⟩
  else if d.month < 12 then ⟨d.year, d.month + 1, 1⟩
  else ⟨d.year + 1, 1, 1⟩

/-- Numeric value of a digit string (caller checks all characters are
digits). -/
def digitsToNat (l : List Char) : Nat :=
  l.foldl (fun n c => n * 10 + (c.toNat - '0'.toNat)) 0

/-- Is `s` a non-empty all-digit string of length at most `w`? Models one
numeric field of `strptime`, which matches 1 to `w` digits. -/
def digitField (w : Nat) (s : List Char) : Bool :=
  !s.isEmpty && s.length ≤ w && s.all Char.isDigit

/-- Split a character list at every `'-'`, keeping empty groups, as Python
`s.split('-')`. -/
def splitDashes : List Char → List (List Char)
  | [] => [[]]
  | c :: rest =>
    match splitDashes rest with
    | [] => [[]]
    | g :: gs => if c = '-' then [] :: g :: gs else (c :: g) :: gs

/-- Embedding of `datetime.strptime(date_str, "%Y-%m-%d").date()`
(calendar_tool.py line 26): three `-`-separated numeric fields (year up to 4
digits, month and day up to 2), with the month in 1..12 and the day valid for
that month; anything else raises `ValueError`, modelled as `none`. -/
def parseIsoDate (s : String) : Option SimpleDate :=
  match splitDashes s.data with
  | [ys, ms, ds] =>
    if digitField 4 ys && digitField 2 ms && digitField 2 ds then
      let y := digitsToNat ys
      let m := digitsToNat ms
      let d := digitsToNat ds
      if 1 ≤ m && m ≤ 12 && 1 ≤ d && d ≤ daysInMonth y m then
        some ⟨y, m, d⟩
      else none
    else none
  | _ => none

/-- Zero-padded two-digit rendering. -/
def pad2 (n : Nat) : String :=
  if n < 10 then "0" ++ toString n else toString n

/-- `str(target_date)`: ISO rendering of a date. -/
def renderDate (d : SimpleDate) : String :=
  toString d.year ++ "-" ++ pad2 d.month ++ "-" ++ pad2 d.day

/-- `HH:MM` rendering of a minutes-since-midnight time, as `strftime('%H:%M')`. -/
def renderTime (m : Nat) : String :=
  pad2 (m / 60) ++ ":" ++ pad2 (m % 60)

/-- Rendering of one slot: `f"{start} - {end}"`. -/
def renderSlot (p : Nat × Nat) : String :=
  renderTime p.1 ++ " - " ++ renderTime p.2

/-- The dict returned by `check_calendar`. -/
structure CalendarToolResult where
  status : String
  date : Option SimpleDate
  available_slots : List (Nat × Nat)
  message : String
deriving DecidableEq, Repr

/-- Embedding of `check_calendar` (calendar_tool.py lines 9-45). `today` is
`datetime.now().date()`; `events` are the events the external calendar
returns for the resolved date. -/
def check_calendar (today : SimpleDate) (events : List (Nat × Nat))
    (date_str : String) : CalendarToolResult :=
  let target? : Option SimpleDate :=
    if pyLower date_str = "today" then some today
    else if pyLower date_str = "tomorrow" then some (nextDay today)
    else parseIsoDate date_str
  match target? with
  | none =>
    ⟨"error", none, [],
      "Invalid date format. Please use YYYY-MM-DD or say 'today/tomorrow'"⟩
  | some d =>
    let slots := get_available_slots events
    ⟨"success", some d, slots,
      "Available slots on " ++ renderDate d ++ ": " ++
        String.intercalate ", " (slots.map renderSlot)⟩

example : classify_action "Your booking is confirmed" = "booking" := by decide
example : classify_action "Let me TRANSFER you" = "transfer" := by decide
example : classify_action "Available slots: ..." = "calendar" := by decide
example : classify_action "Hello, how can I help?" = "response" := by decide
example : rechunk "Hi there, I can help with that." =
    ["Hi ", "there,", " ", "I ", "can ", "help ", "with ", "that."] := by decide
example : String.join (rechunk "Hi there, I can help with that.") =
    "Hi there, I can help with that." := by decide

/-! ### Helper lemmas -/

theorem listContains_cons (n : List Char) (c : Char) (l : List Char)
    (h : listContains n l = true) : listContains n (c :: l) = true := by
  simp [listContains, h]

theorem listContains_of_prefix (n l : List Char) (h : n <+: l) :
    listContains n l = true := by
  cases l with
  | nil =>
    have hn : n = [] := List.prefix_nil.mp h
    simp [listContains, hn]
  | cons c rest =>
    simp [listContains, h]

theorem listContains_middle (n p s : List Char) :
    listContains n (p ++ (n ++ s)) = true := by
  induction p with
  | nil => exact listContains_of_prefix n (n ++ s) (List.prefix_append n s)
  | cons c p ih => exact listContains_cons _ _ _ ih

theorem strContains_middle (pre mid suf : String) :
    strContains (pre ++ mid ++ suf) mid = true := by
  simp only [strContains, String.data_append, List.append_assoc]
  exact listContains_middle mid.data pre.data suf.data

theorem strContains_apology (e : String) :
    strContains (apologyMessage e) e = true :=
  strContains_middle "I encountered an error: " e ". Please try again."

theorem string_foldl_append_data (l : List String) (init : String) :
    (l.foldl (· ++ ·) init).data = init.data ++ (l.map String.data).flatten := by
  induction l generalizing init with
  | nil => simp
  | cons a l ih => simp [List.foldl_cons, ih, List.append_assoc]

theorem string_join_data (l : List String) :
    (String.join l).data = (l.map String.data).flatten := by
  unfold String.join
  rw [string_foldl_append_data l ""]
  rfl

/-! ### Claim theorems -/

/-- C1: Action classification is a pure function of the final response text,
computed by case-insensitive first-match-wins substring rules (booking /
appointed → booking; transfer → transfer; calendar / available → calendar;
otherwise response). The code's classification coincides with the reference
definition written from the spec, the category `process_message` returns is
the reference classification of its response text, and the category carried
by the re-chunking stream's terminal done event is the reference
classification of the final text it carries. -/
theorem action_classification_matches_spec (r : AgentResult) (a t : String)
    (h : Chunk.done a t ∈ process_message_stream (Except.ok ()) true (Except.ok r)) :
    classify_action = classify_action_spec
  ∧ (process_message (Except.ok ()) true (Except.ok r)).action
      = classify_action_spec (process_message (Except.ok ()) true (Except.ok r)).response
  ∧ a = classify_action_spec t := by
  refine ⟨rfl, rfl, ?_⟩
  have hs : process_message_stream (Except.ok ()) true (Except.ok r)
      = (if ((r.messages.getLast?).getD "").data.isEmpty then []
          else (rechunk ((r.messages.getLast?).getD "")).map Chunk.content)
        ++ [Chunk.done
              (if ((r.messages.getLast?).getD "").data.isEmpty then "response"
                else classify_action ((r.messages.getLast?).getD ""))
              ((r.messages.getLast?).getD "")] := rfl
  rw [hs, List.mem_append] at h
  rcases h with h | h
  · split at h
    · simp at h
    · rw [List.mem_map] at h
      obtain ⟨x, -, hx⟩ := h
      cases hx
  · rw [List.mem_singleton, Chunk.done.injEq] at h
    obtain ⟨ha, ht⟩ := h
    subst ha ht
    by_cases hE : ((r.messages.getLast?).getD "").data.isEmpty
    · have hnil : (r.messages.getLast?).getD "" = "" := by
        apply String.ext
        simpa [List.isEmpty_iff] using hE
      rw [if_pos hE, hnil]
      decide
    · rw [if_neg hE]
      rfl

/-- C1 witness: a concrete run whose final text is "Your booking is
confirmed". -/
theorem action_classification_matches_spec_witness :
    Chunk.done "booking" "Your booking is confirmed" ∈
        process_message_stream (Except.ok ()) true
          (Except.ok ⟨["Your booking is confirmed"]⟩)
  ∧ "booking" = classify_action_spec "Your booking is confirmed" :=
  ⟨by decide,
    (action_classification_matches_spec ⟨["Your booking is confirmed"]⟩
      "booking" "Your booking is confirmed" (by decide)).2.2⟩

/-- C5: every exception raised while building context or while driving the
reasoning gateway (including tool execution, which happens inside
`agent.invoke`) is caught at the turn boundary: `process_message` returns an
apologetic response that contains the exception's error text, with action
category "error". The embedding is a total function invoking the gateway at
most once, so no exception propagates and the turn is not retried. -/
theorem turn_exception_caught_at_boundary (e : String) (conv : Bool)
    (run : Except String AgentResult) :
    (process_message (Except.error e) conv run).action = "error"
  ∧ strContains (process_message (Except.error e) conv run).response e = true
  ∧ (process_message (Except.ok ()) true (Except.error e)).action = "error"
  ∧ strContains (process_message (Except.ok ()) true (Except.error e)).response e
      = true :=
  ⟨rfl, strContains_apology e, rfl, strContains_apology e⟩

/-- C8: scheduler start/stop are idempotent no-ops on the two-state machine:
`start` always succeeds and leaves the scheduler running (in particular
starting a running scheduler is a no-op, not an error, although the raw
APScheduler `start` would raise), and `stop` always succeeds and leaves it
stopped. -/
theorem scheduler_start_stop_idempotent (s : SchedState) :
    schedulerStart s = Except.ok ⟨true⟩
  ∧ schedulerStop s = Except.ok ⟨false⟩
  ∧ schedulerStart ⟨true⟩ = Except.ok ⟨true⟩
  ∧ schedulerStop ⟨false⟩ = Except.ok ⟨false⟩ := by
  obtain ⟨b⟩ := s
  cases b <;> exact ⟨rfl, rfl, rfl, rfl⟩

/-- C10: when the Conversation row is missing, `process_message` returns
exactly `{response: "Error: Conversation not found", action: "error"}` and
both streaming variants yield the single terminal error chunk with data
"Conversation not found" and no content chunks; the result is the same for
every possible gateway outcome, i.e. the gateway is not invoked. -/
theorem conversation_not_found_result (run : Except String AgentResult)
    (polled : List String) :
    process_message (Except.ok ()) false run
        = ⟨"Error: Conversation not found", "error"⟩
  ∧ process_message_stream (Except.ok ()) false run
        = [Chunk.error "Conversation not found"]
  ∧ process_message_stream_async (Except.ok ()) false run polled
        = [Chunk.error "Conversation not found"] :=
  ⟨rfl, rfl, rfl⟩

/-- C2: the notification flags are monotone one-shot flags. Each sweep's
query selects only rows whose flag is false, so a row whose flag is already
true is never sent to again; the per-record body sets the flag and commits
only when the send reports status "success", and any other outcome (an error
status or a raised exception) leaves the flag as it was; a step never clears
a flag nor touches the other flag; and `create_booking`, the only other
operation writing this table, appends a fresh row and leaves existing rows
untouched. -/
theorem notification_flags_monotone (now : Int)
    (send sendR : BookingRow → Except String String) (b : BookingRow)
    (db : List BookingRow) :
    (∀ x ∈ sweepRemindersSent now db, x.reminder_sent = false)
  ∧ (∀ x ∈ sweepReviewsSent now db, x.review_sent = false)
  ∧ (b.reminder_sent = true →
      reminderStep now send b = b ∧ b ∉ sweepRemindersSent now db)
  ∧ (b.review_sent = true →
      reviewStep now sendR b = b ∧ b ∉ sweepReviewsSent now db)
  ∧ ((reminderStep now send b).reminder_sent = true →
      b.reminder_sent = true ∨ send b = Except.ok "success")
  ∧ (send b ≠ Except.ok "success" →
      (reminderStep now send b).reminder_sent = b.reminder_sent)
  ∧ ((reviewStep now sendR b).review_sent = true →
      b.review_sent = true ∨ sendR b = Except.ok "success")
  ∧ (sendR b ≠ Except.ok "success" →
      (reviewStep now sendR b).review_sent = b.review_sent)
  ∧ ((reminderStep now send b).review_sent = b.review_sent)
  ∧ ((reviewStep now sendR b).reminder_sent = b.reminder_sent)
  ∧ (sweepReminders now send db = db.map (reminderStep now send))
  ∧ (∀ uid un up parsed notes cal sms, ∃ tail,
      (create_booking db uid un up parsed notes now cal sms).db = db ++ tail) := by
  refine ⟨?_, ?_, ?_, ?_, ?_, ?_, ?_, ?_, ?_, ?_, rfl, ?_⟩
  · intro x hx
    have := (List.mem_filter.mp hx).2
    simp only [reminderEligible, Bool.and_eq_true, decide_eq_true_eq] at this
    exact this.2
  · intro x hx
    have := (List.mem_filter.mp hx).2
    simp only [reviewEligible, Bool.and_eq_true, decide_eq_true_eq] at this
    exact this.2
  · intro hb
    constructor
    · simp [reminderStep, reminderEligible, hb]
    · intro hmem
      have := (List.mem_filter.mp hmem).2
      simp [reminderEligible, hb] at this
  · intro hb
    constructor
    · simp [reviewStep, reviewEligible, hb]
    · intro hmem
      have := (List.mem_filter.mp hmem).2
      simp [reviewEligible, hb] at this
  · intro hset
    unfold reminderStep at hset
    split at hset
    · rcases hsend : send b with e | st <;> rw [hsend] at hset
      · exact Or.inl hset
      · by_cases hst : st = "success"
        · exact Or.inr (by rw [hst])
        · simp only [hst, if_false] at hset
          exact Or.inl hset
    · exact Or.inl hset
  · intro hfail
    unfold reminderStep
    split
    · rcases hsend : send b with e | st
      · rfl
      · have hst : st ≠ "success" := fun hq => hfail (hq ▸ hsend)
        simp [hst]
    · rfl
  · intro hset
    unfold reviewStep at hset
    split at hset
    · rcases hsend : sendR b with e | st <;> rw [hsend] at hset
      · exact Or.inl hset
      · by_cases hst : st = "success"
        · exact Or.inr (by rw [hst])
        · simp only [hst, if_false] at hset
          exact Or.inl hset
    · exact Or.inl hset
  · intro hfail
    unfold reviewStep
    split
    · rcases hsend : sendR b with e | st
      · rfl
      · have hst : st ≠ "success" := fun hq => hfail (hq ▸ hsend)
        simp [hst]
    · rfl
  · unfold reminderStep
    split
    · rcases send b with e | st
      · rfl
      · by_cases hst : st = "success" <;> simp [hst]
    · rfl
  · unfold reviewStep
    split
    · rcases sendR b with e | st
      · rfl
      · by_cases hst : st = "success" <;> simp [hst]
    · rfl
  · intro uid un up parsed notes cal sms
    rcases parsed with _ | bdt
    · exact ⟨[], by simp [create_booking]⟩
    · by_cases hlt : bdt < now
      · exact ⟨[], by simp [create_booking, hlt]⟩
      · rcases cal with e | c
        · exact ⟨[⟨uid, un, up, bdt, notes, now, none, false, false⟩],
            by simp [create_booking, hlt]⟩
        · by_cases hst : c.status = "success"
          · exact ⟨[⟨uid, un, up, bdt, notes, now, c.event_id, false, false⟩],
              by simp [create_booking, hlt, hst]⟩
          · exact ⟨[⟨uid, un, up, bdt, notes, now, none, false, false⟩],
              by simp [create_booking, hlt, hst]⟩

/-- C2 witness: a concrete record whose flags are already true is untouched
by both per-record sweep bodies and selected by neither query. -/
theorem notification_flags_monotone_witness :
    (⟨"u1", "Alice", "555", 1440, none, 0, none, true, true⟩ :
        BookingRow).reminder_sent = true
  ∧ reminderStep 0 (fun _ => Except.ok "success")
        ⟨"u1", "Alice", "555", 1440, none, 0, none, true, true⟩
      = ⟨"u1", "Alice", "555", 1440, none, 0, none, true, true⟩ :=
  ⟨rfl,
    ((notification_flags_monotone 0 (fun _ => Except.ok "success")
      (fun _ => Except.ok "success")
      ⟨"u1", "Alice", "555", 1440, none, 0, none, true, true⟩ []).2.2.1 rfl).1⟩

/-- C3 counterexample: the claim requires every datetime not strictly after
the current instant to be rejected, but the code's guard is
`booking_datetime < datetime.now()`, so a booking at exactly the current
instant is accepted: with `now = 0` and parsed instant `0`, the tool reports
success and persists a row. -/
theorem create_booking_accepts_present_instant :
    (create_booking [] "u1" "Alice" "555" (some 0) none 0
        (Except.error "calendar down") (Except.ok ())).result.status = "success"
  ∧ (create_booking [] "u1" "Alice" "555" (some 0) none 0
        (Except.error "calendar down") (Except.ok ())).db ≠ [] := by
  constructor
  · rfl
  · decide

/-- C3 (amended): for every well-formed datetime string whose parsed instant
is strictly before the current time, `create_booking` returns the past-date
error result and persists no row; and every row `create_booking` ever
persists satisfies `created_at ≤ datetime` (a booking at exactly the
creation instant is accepted). -/
theorem create_booking_past_date_rejected (db : List BookingRow)
    (uid un up : String) (bdt : Int) (notes : Option String) (now : Int)
    (cal : Except String CalCreateResult) (sms : Except String Unit) :
    (bdt < now →
      create_booking db uid un up (some bdt) notes now cal sms
        = ⟨db, [], ⟨"error", "Cannot book in the past. Please choose a future date."⟩⟩)
  ∧ (∀ r ∈ (create_booking db uid un up (some bdt) notes now cal sms).db,
      r ∈ db ∨ r.created_at ≤ r.datetime) := by
  constructor
  · intro hlt
    simp only [create_booking, if_pos hlt]
  · intro r hr
    by_cases hlt : bdt < now
    · simp only [create_booking, if_pos hlt] at hr
      exact Or.inl hr
    · simp only [create_booking, if_neg hlt] at hr
      rw [List.mem_append, List.mem_singleton] at hr
      rcases hr with hr | hr
      · exact Or.inl hr
      · right
        subst hr
        rcases cal with e | c
        · simpa using Int.not_lt.mp hlt
        · by_cases hst : c.status = "success" <;>
            simp [hst, Int.not_lt.mp hlt]

/-- C3 witness: a strictly past instant is rejected and nothing persisted. -/
theorem create_booking_past_date_rejected_witness :
    (3 : Int) < 5
  ∧ create_booking [] "u1" "Alice" "555" (some 3) none 5
        (Except.error "calendar down") (Except.ok ())
      = ⟨[], [], ⟨"error", "Cannot book in the past. Please choose a future date."⟩⟩ :=
  ⟨by decide,
    (create_booking_past_date_rejected [] "u1" "Alice" "555" 3 none 5
      (Except.error "calendar down") (Except.ok ())).1 (by decide)⟩

/-- C4: on the success path the Booking row is committed before either
best-effort side effect is attempted; the calendar and SMS outcomes never
change the returned status from "success"; the persisted row differs from
the committed one at most in the external event reference; and the only
storage event between the calendar attempt and the SMS attempt is (possibly)
the event-reference commit. -/
theorem create_booking_commit_precedes_side_effects (db : List BookingRow)
    (uid un up : String) (bdt : Int) (notes : Option String) (now : Int)
    (cal : Except String CalCreateResult) (sms : Except String Unit)
    (h : ¬ bdt < now) :
    (create_booking db uid un up (some bdt) notes now cal sms).result.status
        = "success"
  ∧ (∃ mid,
      (create_booking db uid un up (some bdt) notes now cal sms).trace
          = BookingEv.commitBooking ⟨uid, un, up, bdt, notes, now, none, false, false⟩
              :: BookingEv.calendarAttempt :: (mid ++ [BookingEv.smsAttempt])
        ∧ ∀ ev ∈ mid, ∃ eid, ev = BookingEv.commitEventId eid)
  ∧ (∃ eid,
      (create_booking db uid un up (some bdt) notes now cal sms).db
          = db ++ [{ user_id := uid, user_name := un, user_phone := up,
                      datetime := bdt, notes := notes, created_at := now,
                      google_event_id := eid, reminder_sent := false,
                      review_sent := false }]) := by
  simp only [create_booking, if_neg h]
  refine ⟨by trivial, ?_, ?_⟩
  · rcases cal with e | c
    · refine ⟨[], rfl, ?_⟩
      intro ev hev
      simp at hev
    · by_cases hst : c.status = "success"
      · refine ⟨[BookingEv.commitEventId c.event_id], by simp [hst], ?_⟩
        intro ev hev
        rw [List.mem_singleton] at hev
        exact ⟨c.event_id, hev⟩
      · refine ⟨[], by simp [hst], ?_⟩
        intro ev hev
        simp at hev
  · rcases cal with e | c
    · exact ⟨none, rfl⟩
    · by_cases hst : c.status = "success"
      · exact ⟨c.event_id, by simp [hst]⟩
      · exact ⟨none, by simp [hst]⟩

/-- C4 witness: a concrete future booking whose calendar sync fails still
reports success, with the row committed first. -/
theorem create_booking_commit_precedes_side_effects_witness :
    ¬ (10 : Int) < 5
  ∧ (create_booking [] "u1" "Alice" "555" (some 10) none 5
        (Except.error "calendar down") (Except.ok ())).result.status
      = "success" :=
  ⟨by decide,
    (create_booking_commit_precedes_side_effects [] "u1" "Alice" "555" 10 none 5
      (Except.error "calendar down") (Except.ok ()) (by decide)).1⟩

/-- Flattening the chunks produced from a non-empty remainder recovers the
pending buffer followed by the remainder. -/
theorem rechunkGo_flatten (l : List Char) :
    ∀ buffer, l ≠ [] →
      ((rechunkGo buffer l).map String.data).flatten = buffer ++ l := by
  induction l with
  | nil => intro buffer hne; exact absurd rfl hne
  | cons c rest ih =>
    intro buffer _
    simp only [rechunkGo]
    split
    · by_cases hrest : rest = []
      · subst hrest
        simp [rechunkGo]
      · rw [List.map_cons, List.flatten_cons, ih [] hrest]
        simp
    · rename_i hcond
      have hrest : rest ≠ [] := by
        intro hr
        subst hr
        simp at hcond
      rw [ih (buffer ++ [c]) hrest]
      simp

/-- Concatenating all delivery chunks of the re-chunking mode reproduces the
original text. -/
theorem rechunk_reassembles (s : String) : String.join (rechunk s) = s := by
  apply String.ext
  rw [string_join_data]
  unfold rechunk
  by_cases hs : s.data = []
  · rw [hs]
    simp [rechunkGo]
  · rw [rechunkGo_flatten s.data [] hs]
    simp

/-- Every chunk produced with a pending buffer of at most 9 characters is
non-empty and at most 10 characters long. -/
theorem rechunkGo_chunk_size (l : List Char) :
    ∀ buffer, buffer.length ≤ 9 →
      ∀ ch ∈ rechunkGo buffer l, 1 ≤ ch.length ∧ ch.length ≤ 10 := by
  induction l with
  | nil =>
    intro buffer _ ch hch
    simp [rechunkGo] at hch
  | cons c rest ih =>
    intro buffer hb ch hch
    simp only [rechunkGo] at hch
    revert hch
    split
    · intro hch
      rw [List.mem_cons] at hch
      rcases hch with hch | hch
      · subst hch
        show 1 ≤ (buffer ++ [c]).length ∧ (buffer ++ [c]).length ≤ 10
        rw [List.length_append, List.length_singleton]
        omega
      · exact ih [] (by simp) ch hch
    · intro hch
      rename_i hcond
      have hlen : (buffer ++ [c]).length ≤ 9 := by
        rw [Bool.or_assoc, Bool.or_eq_true, not_or, Bool.or_eq_true, not_or] at hcond
        have := hcond.2.1
        simp only [decide_eq_true_eq] at this
        omega
      exact ih (buffer ++ [c]) hlen ch hch

/-- C6: in re-chunking (non-live) streaming mode the stream is exactly the
delivery chunks of the final text, in order, followed by the terminal done
event carrying that final text, and concatenating all content chunks in
emission order reproduces the final text exactly. -/
theorem stream_rechunking_reassembles (r : AgentResult) :
    String.join (rechunk ((r.messages.getLast?).getD ""))
        = (r.messages.getLast?).getD ""
  ∧ process_message_stream (Except.ok ()) true (Except.ok r)
      = ((rechunk ((r.messages.getLast?).getD "")).map Chunk.content)
        ++ [Chunk.done
              (if ((r.messages.getLast?).getD "").data.isEmpty then "response"
                else classify_action ((r.messages.getLast?).getD ""))
              ((r.messages.getLast?).getD "")] := by
  constructor
  · exact rechunk_reassembles _
  · have hs : process_message_stream (Except.ok ()) true (Except.ok r)
        = (if ((r.messages.getLast?).getD "").data.isEmpty then []
            else (rechunk ((r.messages.getLast?).getD "")).map Chunk.content)
          ++ [Chunk.done
                (if ((r.messages.getLast?).getD "").data.isEmpty then "response"
                  else classify_action ((r.messages.getLast?).getD ""))
                ((r.messages.getLast?).getD "")] := rfl
    rw [hs]
    by_cases hE : ((r.messages.getLast?).getD "").data.isEmpty
    · rw [if_pos hE]
      have hnil : (r.messages.getLast?).getD "" = "" := by
        apply String.ext
        simpa [List.isEmpty_iff] using hE
      rw [hnil]
      rfl
    · rw [if_neg hE]

/-- C9: in re-chunking streaming mode every emitted content chunk is
non-empty and at most 10 characters long (the fixed minimum-length cutoff of
the greedy chunker). -/
theorem stream_chunks_bounded (r : AgentResult) (d : String)
    (h : Chunk.content d ∈ process_message_stream (Except.ok ()) true (Except.ok r)) :
    1 ≤ d.length ∧ d.length ≤ 10 := by
  have hs : process_message_stream (Except.ok ()) true (Except.ok r)
      = (if ((r.messages.getLast?).getD "").data.isEmpty then []
          else (rechunk ((r.messages.getLast?).getD "")).map Chunk.content)
        ++ [Chunk.done
              (if ((r.messages.getLast?).getD "").data.isEmpty then "response"
                else classify_action ((r.messages.getLast?).getD ""))
              ((r.messages.getLast?).getD "")] := rfl
  rw [hs, List.mem_append] at h
  rcases h with h | h
  · split at h
    · simp at h
    · rw [List.mem_map] at h
      obtain ⟨x, hx, hxd⟩ := h
      injection hxd with hxd
      subst hxd
      exact rechunkGo_chunk_size _ [] (by simp) _ hx
  · rw [List.mem_singleton] at h
    cases h

/-- C9 witness: a concrete stream whose first chunk is "Hello ". -/
theorem stream_chunks_bounded_witness :
    Chunk.content "Hello " ∈ process_message_stream (Except.ok ()) true
        (Except.ok ⟨["Hello world"]⟩)
  ∧ 1 ≤ "Hello ".length ∧ "Hello ".length ≤ 10 :=
  ⟨by decide,
    stream_chunks_bounded ⟨["Hello world"]⟩ "Hello " (by decide)⟩

/-- A slot run starting at a reachable instant stays within its bounds: each
emitted slot starts no earlier than the current instant, lasts exactly 30
minutes, and ends by the limit. -/
theorem mem_slotsFrom (current limit : Nat) :
    ∀ p ∈ slotsFrom current limit,
      current ≤ p.1 ∧ p.2 = p.1 + 30 ∧ p.2 ≤ limit := by
  induction current, limit using slotsFrom.induct with
  | case1 current limit h ih =>
    intro p hp
    rw [slotsFrom, if_pos h] at hp
    rw [List.mem_cons] at hp
    rcases hp with hp | hp
    · subst hp
      exact ⟨Nat.le_refl _, rfl, h⟩
    · have := ih p hp
      omega
  | case2 current limit h =>
    intro p hp
    rw [slotsFrom, if_neg h] at hp
    simp at hp

/-- A slot run is non-empty as soon as one whole slot fits. -/
theorem slotsFrom_ne_nil (current limit : Nat) (h : current + 30 ≤ limit) :
    slotsFrom current limit ≠ [] := by
  rw [slotsFrom, if_pos h]
  simp

/-- C7: submitting the literal "tomorrow" (resolved against the wall-clock
date) with no conflicting events yields a success result with a non-empty
slot list in which every slot lies within the fixed 09:00-17:00 service
window; submitting an unparsable date string yields a result with status
"error" whose message mentions the expected format, not an exception. -/
theorem availability_tool_window_and_invalid_date (today : SimpleDate) :
    (check_calendar today [] "tomorrow").status = "success"
  ∧ (check_calendar today [] "tomorrow").available_slots ≠ []
  ∧ (∀ p ∈ (check_calendar today [] "tomorrow").available_slots,
      540 ≤ p.1 ∧ p.1 < p.2 ∧ p.2 ≤ 1020)
  ∧ (check_calendar today [] "next Friday-ish").status = "error"
  ∧ strContains (check_calendar today [] "next Friday-ish").message "YYYY-MM-DD"
      = true := by
  have hslots : (check_calendar today [] "tomorrow").available_slots
      = slotsFrom 540 1020 := rfl
  have herr : check_calendar today [] "next Friday-ish"
      = ⟨"error", none, [],
          "Invalid date format. Please use YYYY-MM-DD or say 'today/tomorrow'"⟩ := rfl
  refine ⟨rfl, ?_, ?_, by rw [herr], by rw [herr]; decide⟩
  · rw [hslots]
    exact slotsFrom_ne_nil 540 1020 (by norm_num)
  · rw [hslots]
    intro p hp
    have := mem_slotsFrom 540 1020 p hp
    omega

/-- C7 witness: the first slot of a concrete "tomorrow" query lies within the
service window. -/
theorem availability_tool_window_and_invalid_date_witness :
    ((540, 570) : Nat × Nat) ∈
        (check_calendar ⟨2025, 10, 12⟩ [] "tomorrow").available_slots
  ∧ 540 ≤ ((540, 570) : Nat × Nat).1
  ∧ ((540, 570) : Nat × Nat).1 < ((540, 570) : Nat × Nat).2
  ∧ ((540, 570) : Nat × Nat).2 ≤ 1020 := by
  have hmem : ((540, 570) : Nat × Nat) ∈
      (check_calendar ⟨2025, 10, 12⟩ [] "tomorrow").available_slots := by
    show ((540, 570) : Nat × Nat) ∈ slotsFrom 540 1020
    rw [slotsFrom, if_pos (by norm_num)]
    exact List.mem_cons_self _ _
  exact ⟨hmem,
    (availability_tool_window_and_invalid_date ⟨2025, 10, 12⟩).2.2.1 (540, 570) hmem⟩

end Receptions
